import Mathlib

/-!
# Verification of the myforms answer-validation and form-consistency rules

Shallow embedding of the Django app in `src/api/` (models.py, serializers.py,
views.py, urls.py, migrations/0006): a survey backend with Forms owning
Questions (types `text`, `select`, `multiple`), Questions owning Options, and
Responses composed of Answers and AnswerOptions.

The persistent store is a record of lists of rows; primary keys are drawn from
a single fresh-id counter. Timestamps are naturals supplied by the caller as
the current clock reading (`timezone.now()`).
-/

namespace MyForms

/-- Embeds `api.models.Form` (models.py): id, owner, created/updated
timestamps, title, description. `date_updated` is touched by
`Form.update_date_updated`. -/
structure Form where
  id : Nat
  createdBy : Nat
  dateCreated : Nat
  dateUpdated : Nat
  title : String
  description : String
deriving DecidableEq, Repr

/-- Embeds `api.models.Question`: text, type (a string; the serializer's
choice field restricts it to "text"/"select"/"multiple"), owning form. -/
structure Question where
  id : Nat
  text : String
  type : String
  formId : Nat
deriving DecidableEq, Repr

/-- Embeds `api.models.Option` (named `OptionRow` because `Option` is taken by
Lean): value, position, owning question. After migration 0006
(`AlterUniqueTogether(name="option", unique_together=set())`) the database has
NO uniqueness constraint on (question, position). -/
structure OptionRow where
  id : Nat
  value : String
  position : Int
  questionId : Nat
deriving DecidableEq, Repr

/-- Embeds `api.models.Response`: submitter, created timestamp, owning form. -/
structure Response where
  id : Nat
  createdBy : Nat
  dateCreated : Nat
  formId : Nat
deriving DecidableEq, Repr

/-- Embeds `api.models.Answer`: the question it answers and its response. -/
structure Answer where
  id : Nat
  questionId : Nat
  responseId : Nat
deriving DecidableEq, Repr

/-- Embeds `api.models.AnswerOption`: one submitted value for an answer.
Migration 0006 and models.py declare `unique_together = (("value", "answer"),)`
on this table, so inserting a duplicate (value, answer) pair raises
IntegrityError at the database. -/
structure AnswerOption where
  id : Nat
  value : String
  answerId : Nat
deriving DecidableEq, Repr

/-- The backing store: one list of rows per model, plus a fresh primary-key
counter. -/
structure Store where
  nextId : Nat
  forms : List Form
  questions : List Question
  options : List OptionRow
  responses : List Response
  answers : List Answer
  answerOptions : List AnswerOption
deriving DecidableEq, Repr

/-- The domain errors raised by the code under `src/api/`. Each constructor is
one raise site (or family of sites carrying the same spec-level error):
* `formNotFound`: `Form.DoesNotExist` / form pk validation.
* `questionNotFound`: `exceptions.NotFound` for an unresolvable question.
* `optionNotFound`: `NotFound` for an unresolvable option (OptionDetail).
* `missingAnswers`: `{'answers': 'This field is required.'}`.
* `countMismatch`: "Must contain only one AnswerOption ..." (text/select).
* `emptySubmission`: "Must contain at least one AnswerOption ..." (multiple).
* `invalidValue`: value invalid or not unique (multiple/select).
* `textTypeOption`: "Question object must NOT be of type 'text'."
* `invalidChoice`: serializer choice-field rejection of a question type.
* `integrityError`: an unanticipated database uniqueness violation. -/
inductive ApiError where
  | formNotFound
  | questionNotFound
  | optionNotFound
  | missingAnswers
  | countMismatch
  | emptySubmission
  | invalidValue
  | textTypeOption
  | invalidChoice
  | integrityError
deriving DecidableEq, Repr

/-- `Form.objects.get(pk=formId, created_by=userId)`. -/
def findForm (s : Store) (formId userId : Nat) : Option Form :=
  s.forms.find? (fun f => f.id == formId && f.createdBy == userId)

/-- `Form.objects.filter(pk=formId)` existence, owner not checked (used by the
response path, where the form pk comes from the URL and is validated by the
serializer's related field over all forms). -/
def getForm (s : Store) (formId : Nat) : Option Form :=
  s.forms.find? (fun f => f.id == formId)

/-- `Question.objects.get(pk=questionId, form=formId)`. -/
def findQuestionInForm (s : Store) (questionId formId : Nat) : Option Question :=
  s.questions.find? (fun q => q.id == questionId && q.formId == formId)

/-- `Option.objects.get/filter(pk=optionId, question=questionId)`. -/
def findOptionInQuestion (s : Store) (optionId questionId : Nat) : Option OptionRow :=
  s.options.find? (fun o => o.id == optionId && o.questionId == questionId)

/-- `Form.update_date_updated` (models.py): sets `date_updated` of the form to
the current time and saves it. -/
def touchForm (s : Store) (formId now : Nat) : Store :=
  { s with forms :=
      s.forms.map (fun f => if f.id == formId then { f with dateUpdated := now } else f) }

/-- `Option.objects.filter(question=question).values_list('value', flat=True)`:
the values of the options owned by a question. -/
def optionValues (s : Store) (questionId : Nat) : List String :=
  (s.options.filter (fun o => o.questionId == questionId)).map (fun o => o.value)

/-- The Validation Engine: the per-type checks of `ResponseSerializer.create`
(serializers.py lines 184-236) run on one answer entry before any Answer row
is created.
* `text`: `len(answer_options_data) != 1` fails.
* `multiple`: empty fails; then the set of submitted values must be a subset
  of the question's option values and have the same size as the submitted
  list (`answer_values.issubset(option_values) and len(answer_values) ==
  len(answer_options_data)`).
* `select`: `len(...) == 1` required, and the single value must occur among
  the option values.
* any other type string: no branch matches, no check is performed. -/
def validate (s : Store) (q : Question) (values : List String) : Except ApiError Unit :=
  if q.type = "text" then
    if values.length ≠ 1 then .error .countMismatch else .ok ()
  else if q.type = "multiple" then
    if values.length = 0 then .error .emptySubmission
    else if (values.dedup.all fun v => (optionValues s q.id).contains v)
        && values.dedup.length == values.length then .ok ()
    else .error .invalidValue
  else if q.type = "select" then
    match values with
    | [v] => if (optionValues s q.id).contains v then .ok () else .error .invalidValue
    | _ => .error .countMismatch
  else .ok ()

/-- One entry of the `answers` payload of a Response creation request: the
question pk and the list of submitted `value` strings of its answer options. -/
structure AnswerInput where
  question : Nat
  answer_options : List String
deriving DecidableEq, Repr

/-- The inner loop `for answer_option_data in answer_options_data:
AnswerOption.objects.create(answer=new_answer, **answer_option_data)`.
The database's `unique_together = ("value", "answer")` on AnswerOption makes
a duplicate insert raise IntegrityError, which the serializer does not catch;
rows inserted before the failure stay inserted by the serializer itself. -/
def createAnswerOptions (s : Store) (answerId : Nat) :
    List String → Store × Except ApiError Unit
  | [] => (s, .ok ())
  | v :: rest =>
    if s.answerOptions.any (fun ao => ao.answerId == answerId && ao.value == v) then
      (s, .error .integrityError)
    else
      createAnswerOptions
        { s with nextId := s.nextId + 1,
                 answerOptions := s.answerOptions ++ [⟨s.nextId, v, answerId⟩] }
        answerId rest

/-- The per-entry loop of `ResponseSerializer.create` (serializers.py lines
171-242): resolve the question inside the response's form
(`Question.objects.get(pk=..., form=response.form)`, else NotFound), run the
per-type validation, then create the Answer row and its AnswerOption rows. -/
def processAnswers (s : Store) (resp : Response) :
    List AnswerInput → Store × Except ApiError Unit
  | [] => (s, .ok ())
  | entry :: rest =>
    match findQuestionInForm s entry.question resp.formId with
    | none => (s, .error .questionNotFound)
    | some q =>
      match validate s q entry.answer_options with
      | .error e => (s, .error e)
      | .ok _ =>
        match createAnswerOptions
            { s with nextId := s.nextId + 1,
                     answers := s.answers ++ [⟨s.nextId, q.id, resp.id⟩] }
            s.nextId entry.answer_options with
        | (s₂, .error e) => (s₂, .error e)
        | (s₂, .ok _) => processAnswers s₂ resp rest

/-- `ResponseSerializer.create` (serializers.py lines 151-244) as invoked on a
validated request: the form pk has already been checked against the Form table
by the serializer's related field; `answers` absent from the payload arrives
as `none` and raises "This field is required."; otherwise the Response row is
created first and the answer entries are then processed one by one. The store
component of the result is the raw state written by the serializer itself
(partial on error). -/
def createResponse (s : Store) (now userId formId : Nat)
    (answersData : Option (List AnswerInput)) : Store × Except ApiError Nat :=
  if (getForm s formId).isNone then (s, .error .formNotFound)
  else
    match answersData with
    | none => (s, .error .missingAnswers)
    | some entries =>
      match processAnswers
          { s with nextId := s.nextId + 1,
                   responses := s.responses ++ [⟨s.nextId, userId, now, formId⟩] }
          ⟨s.nextId, userId, now, formId⟩ entries with
      | (s₂, .error e) => (s₂, .error e)
      | (s₂, .ok _) => (s₂, .ok s.nextId)

/-- The question types accepted by the serializer's generated choice field
(from the model field's `choices` in models.py). -/
def questionTypeChoices : List String := ["text", "select", "multiple"]

/-- `QuestionList.perform_create` (views.py lines 109-118) +
`QuestionSerializer.create` (serializers.py lines 111-119): resolve the form
by pk and owner, touch the form's `date_updated`, create the Question. The
serializer's choice field has already rejected any type outside the model's
choices. -/
def createQuestion (s : Store) (now userId formId : Nat)
    (text type : String) : Store × Except ApiError Nat :=
  match findForm s formId userId with
  | none => (s, .error .formNotFound)
  | some _ =>
    if !questionTypeChoices.contains type then (s, .error .invalidChoice)
    else
      (⟨s.nextId + 1, (touchForm s formId now).forms,
        s.questions ++ [⟨s.nextId, text, type, formId⟩],
        s.options, s.responses, s.answers, s.answerOptions⟩, .ok s.nextId)

/-- `Option.objects.filter(question=instance).delete()`: remove every Option
owned by the question. -/
def deleteOptionsOf (s : Store) (questionId : Nat) : Store :=
  { s with options := s.options.filter (fun o => !(o.questionId == questionId)) }

/-- The field assignment the serializer's update applies to the target
question; fields absent from the partial payload (`none`) keep their
values; other questions are untouched. -/
def updView (questionId : Nat) (newText newType : Option String) :
    Question → Question := fun q =>
  if q.id == questionId then
    { q with text := newText.getD q.text, type := newType.getD q.type }
  else q

/-- Apply a row transformation to the questions table. -/
def mapQuestions (s : Store) (f : Question → Question) : Store :=
  { s with questions := s.questions.map f }

/-- `QuestionDetail.get_queryset` (views.py lines 134-156) +
`QuestionSerializer.update` (serializers.py lines 97-109): resolve form and
question; if the incoming data sets type to 'text', delete all the question's
Options (`Option.objects.filter(question=instance).delete()`); update the
question's fields; finally touch the form's `date_updated`. Fields absent
from the partial update payload are `none` and left unchanged. -/
def updateQuestion (s : Store) (now userId formId questionId : Nat)
    (newText newType : Option String) : Store × Except ApiError Unit :=
  match findForm s formId userId with
  | none => (s, .error .formNotFound)
  | some _ =>
    match findQuestionInForm s questionId formId with
    | none => (s, .error .questionNotFound)
    | some _ =>
      if (match newType with
          | some t => !questionTypeChoices.contains t
          | none => false) then (s, .error .invalidChoice)
      else
        (touchForm
          (mapQuestions
            (if newType = some "text" then deleteOptionsOf s questionId else s)
            (updView questionId newText newType))
          formId now, .ok ())

/-- `QuestionDetail.perform_destroy` (views.py lines 160-163): touch the form,
then delete the Question; the database cascades the delete to the question's
Options, its Answers, and those Answers' AnswerOptions (all FKs are
`on_delete=CASCADE`). -/
def deleteQuestion (s : Store) (now userId formId questionId : Nat) :
    Store × Except ApiError Unit :=
  match findForm s formId userId with
  | none => (s, .error .formNotFound)
  | some _ =>
    match findQuestionInForm s questionId formId with
    | none => (s, .error .questionNotFound)
    | some _ =>
      (⟨s.nextId, (touchForm s formId now).forms,
        s.questions.filter (fun q => !(q.id == questionId)),
        s.options.filter (fun o => !(o.questionId == questionId)),
        s.responses,
        s.answers.filter (fun a => !(a.questionId == questionId)),
        s.answerOptions.filter (fun ao =>
          !(s.answers.any (fun a => a.id == ao.answerId && a.questionId == questionId)))⟩,
        .ok ())

/-- `OptionList.perform_create` (views.py lines 203-215) +
`OptionSerializer.create` (serializers.py lines 66-76): resolve form and
question; reject if the question's type is 'text'; otherwise touch the form
and insert the Option. After migration 0006 removed the (question, position)
`unique_together` constraint, the insert never raises IntegrityError for a
duplicate position, so the view's IntegrityError handler (which would map it
to the position-conflict error) is unreachable on this path. -/
def createOption (s : Store) (now userId formId questionId : Nat)
    (value : String) (position : Int) : Store × Except ApiError Nat :=
  match findForm s formId userId with
  | none => (s, .error .formNotFound)
  | some _ =>
    match findQuestionInForm s questionId formId with
    | none => (s, .error .questionNotFound)
    | some q =>
      if q.type = "text" then (s, .error .textTypeOption)
      else
        (⟨s.nextId + 1, (touchForm s formId now).forms, s.questions,
          s.options ++ [⟨s.nextId, value, position, questionId⟩],
          s.responses, s.answers, s.answerOptions⟩, .ok s.nextId)

/-- The field assignment the serializer's update applies to the target
option; the owning question is excluded from the serializer's fields, so it
cannot change; other options are untouched. -/
def updOptView (optionId : Nat) (newValue : Option String) (newPosition : Option Int) :
    OptionRow → OptionRow := fun o =>
  if o.id == optionId then
    { o with value := newValue.getD o.value, position := newPosition.getD o.position }
  else o

/-- `OptionDetail.get_queryset` (views.py lines 230-265) +
`OptionSerializer.update` (serializers.py lines 80-86): resolve form,
question and option; touch the form; update the option's fields (the
serializer excludes `question`, so an option cannot be moved to another
question; no position check is performed). -/
def updateOption (s : Store) (now userId formId questionId optionId : Nat)
    (newValue : Option String) (newPosition : Option Int) :
    Store × Except ApiError Unit :=
  match findForm s formId userId with
  | none => (s, .error .formNotFound)
  | some _ =>
    match findQuestionInForm s questionId formId with
    | none => (s, .error .questionNotFound)
    | some _ =>
      match findOptionInQuestion s optionId questionId with
      | none => (s, .error .optionNotFound)
      | some _ =>
        ({ touchForm s formId now with
           options := s.options.map (updOptView optionId newValue newPosition) }, .ok ())

/-- `OptionDetail.perform_destroy` (views.py lines 269-272): touch the form,
then delete the Option. -/
def deleteOption (s : Store) (now userId formId questionId optionId : Nat) :
    Store × Except ApiError Unit :=
  match findForm s formId userId with
  | none => (s, .error .formNotFound)
  | some _ =>
    match findQuestionInForm s questionId formId with
    | none => (s, .error .questionNotFound)
    | some _ =>
      match findOptionInQuestion s optionId questionId with
      | none => (s, .error .optionNotFound)
      | some _ =>
        ({ touchForm s formId now with
           options := s.options.filter (fun o => !(o.id == optionId)) }, .ok ())

/-- Modelled from the spec: the Response creation view (`ResponseList`,
referenced in urls.py but not present under `src/`) and the project
transaction settings are not in the sources. Spec §5 states that each
Response-creation call executes as one atomic transaction: on any validation
or lookup failure the transaction rolls back and no partial state is visible.
This wraps the serializer's `create` embedded above (from source) in that
transaction boundary: the initial store is restored on error. -/
def createResponseTx (s : Store) (now userId formId : Nat)
    (answersData : Option (List AnswerInput)) : Store × Except ApiError Nat :=
  match createResponse s now userId formId answersData with
  | (_, .error e) => (s, .error e)
  | (s', .ok r) => (s', .ok r)

/-- One API operation on the store (the mutating endpoints of urls.py that
touch Questions, Options and Responses), together with the clock reading at
which it runs. -/
inductive Op where
  | createQuestion (now userId formId : Nat) (text type : String)
  | updateQuestion (now userId formId questionId : Nat) (newText newType : Option String)
  | deleteQuestion (now userId formId questionId : Nat)
  | createOption (now userId formId questionId : Nat) (value : String) (position : Int)
  | updateOption (now userId formId questionId optionId : Nat)
      (newValue : Option String) (newPosition : Option Int)
  | deleteOption (now userId formId questionId optionId : Nat)
  | createResponse (now userId formId : Nat) (answersData : Option (List AnswerInput))
deriving DecidableEq, Repr

/-- The clock reading an operation runs at. -/
def Op.now : Op → Nat
  | .createQuestion n _ _ _ _ => n
  | .updateQuestion n _ _ _ _ _ => n
  | .deleteQuestion n _ _ _ => n
  | .createOption n _ _ _ _ _ => n
  | .updateOption n _ _ _ _ _ _ => n
  | .deleteOption n _ _ _ _ => n
  | .createResponse n _ _ _ => n

/-- The form a structural (Question/Option) operation targets; `none` for
Response creation, which is not a structural change. -/
def Op.structuralFormId : Op → Option Nat
  | .createQuestion _ _ f _ _ => some f
  | .updateQuestion _ _ f _ _ _ => some f
  | .deleteQuestion _ _ f _ => some f
  | .createOption _ _ f _ _ _ => some f
  | .updateOption _ _ f _ _ _ _ => some f
  | .deleteOption _ _ f _ _ => some f
  | .createResponse _ _ _ _ => none

/-- Run one operation: the store afterwards and whether it succeeded. -/
def runOp (s : Store) : Op → Store × Bool
  | .createQuestion now u f text ty =>
    let r := createQuestion s now u f text ty
    (r.1, r.2.toBool)
  | .updateQuestion now u f q t ty =>
    let r := updateQuestion s now u f q t ty
    (r.1, r.2.toBool)
  | .deleteQuestion now u f q =>
    let r := deleteQuestion s now u f q
    (r.1, r.2.toBool)
  | .createOption now u f q v p =>
    let r := createOption s now u f q v p
    (r.1, r.2.toBool)
  | .updateOption now u f q o v p =>
    let r := updateOption s now u f q o v p
    (r.1, r.2.toBool)
  | .deleteOption now u f q o =>
    let r := deleteOption s now u f q o
    (r.1, r.2.toBool)
  | .createResponse now u f a =>
    let r := createResponseTx s now u f a
    (r.1, r.2.toBool)

/-- The store after one operation. -/
def applyOp (s : Store) (op : Op) : Store := (runOp s op).1

/-- The store after a sequence of operations. -/
def runOps (s : Store) (ops : List Op) : Store := ops.foldl applyOp s

/-- The spec's invariant (§3): a Question of type `text` owns no Options. -/
def TextNoOptions (s : Store) : Prop :=
  ∀ q ∈ s.questions, q.type = "text" → ∀ o ∈ s.options, o.questionId ≠ q.id

/-- Store well-formedness maintained by the database's primary-key sequence
and foreign keys: question ids are pairwise distinct and every question id
and option foreign key is below the fresh-id counter. -/
def WFQ (s : Store) : Prop :=
  (s.questions.map (fun q => q.id)).Nodup ∧
  (∀ q ∈ s.questions, q.id < s.nextId) ∧
  (∀ o ∈ s.options, o.questionId < s.nextId)

/-- Every AnswerOption's foreign key is below the fresh-id counter (it
references an already-allocated Answer id). -/
def AOBound (s : Store) : Prop := ∀ ao ∈ s.answerOptions, ao.answerId < s.nextId

/-- An answer entry that the serializer's loop processes without error:
its question resolves inside the form, validation accepts, and its values are
pairwise distinct (so the AnswerOption inserts hit no uniqueness conflict). -/
def entryOk (s : Store) (formId : Nat) (e : AnswerInput) : Prop :=
  ∃ q, findQuestionInForm s e.question formId = some q ∧
    validate s q e.answer_options = .ok () ∧ e.answer_options.Nodup

/-- An answer entry that fails question lookup or validation. -/
def badEntry (s : Store) (formId : Nat) (e : AnswerInput) : Prop :=
  findQuestionInForm s e.question formId = none ∨
  ∃ q, findQuestionInForm s e.question formId = some q ∧
    validate s q e.answer_options ≠ .ok ()

/-- A concrete sample store used to instantiate the theorems: one form (id 1,
owner 1), a `select` question (id 2) with options Red@0 and Blue@1, a
`multiple` question (id 3) with options A@0 and B@1, a `text` question
(id 4), and a question with the out-of-choices type "date" (id 5). -/
def sampleStore : Store :=
  ⟨20,
   [⟨1, 1, 0, 0, "F", "d"⟩],
   [⟨2, "q1", "select", 1⟩, ⟨3, "q2", "multiple", 1⟩,
    ⟨4, "q3", "text", 1⟩, ⟨5, "q4", "date", 1⟩],
   [⟨6, "Red", 0, 2⟩, ⟨7, "Blue", 1, 2⟩, ⟨8, "A", 0, 3⟩, ⟨9, "B", 1, 3⟩],
   [], [], []⟩

/-! ## Validation Engine lemmas -/

/-- The boolean test of the `multiple` branch holds exactly when the submitted
values are pairwise distinct and each occurs among the question's option
values. -/
theorem multipleCheck_iff (s : Store) (qid : Nat) (values : List String) :
    ((values.dedup.all fun v => (optionValues s qid).contains v)
        && (values.dedup.length == values.length)) = true ↔
      values.Nodup ∧ ∀ v ∈ values, v ∈ optionValues s qid := by
  rw [Bool.and_eq_true, List.all_eq_true]
  constructor
  · rintro ⟨hall, hlen⟩
    have hd : values.dedup = values :=
      (List.Sublist.length_eq (List.dedup_sublist values)).mp (eq_of_beq hlen)
    refine ⟨List.dedup_eq_self.mp hd, fun v hv => ?_⟩
    exact List.elem_iff.mp (hall v (List.mem_dedup.mpr hv))
  · rintro ⟨hnd, hmem⟩
    have hd : values.dedup = values := List.dedup_eq_self.mpr hnd
    refine ⟨fun v hv => List.elem_iff.mpr (hmem v (List.mem_dedup.mp hv)), ?_⟩
    rw [hd]
    exact beq_self_eq_true _

/-- C5: for a Question of type `text`, validation accepts iff the submitted
list has exactly one value (the value itself is unconstrained), and any other
count fails with the count-mismatch error. -/
theorem claim_C5_text_validation (s : Store) (q : Question) (h : q.type = "text")
    (values : List String) :
    (validate s q values = .ok () ↔ values.length = 1) ∧
    (values.length ≠ 1 → validate s q values = .error .countMismatch) := by
  unfold validate
  rw [h]
  by_cases hl : values.length = 1 <;> simp [hl]

/-- Witness for C5: a one-element submission (the empty string included) is
accepted on the sample text question, instantiated from the claim theorem. -/
theorem claim_C5_text_validation_witness :
    validate sampleStore ⟨4, "q3", "text", 1⟩ [""] = .ok () :=
  (claim_C5_text_validation sampleStore ⟨4, "q3", "text", 1⟩ rfl [""]).1.mpr rfl

/-- C4: for a Question of type `select`, validation accepts iff the submitted
list is a single value occurring among the question's option values; any other
count fails with the count-mismatch error and a non-matching single value
fails with the invalid-value error. -/
theorem claim_C4_select_validation (s : Store) (q : Question) (h : q.type = "select")
    (values : List String) :
    (validate s q values = .ok () ↔ ∃ v, values = [v] ∧ v ∈ optionValues s q.id) ∧
    (values.length ≠ 1 → validate s q values = .error .countMismatch) ∧
    (∀ v, values = [v] → v ∉ optionValues s q.id →
      validate s q values = .error .invalidValue) := by
  unfold validate
  rw [h]
  rcases values with _ | ⟨v, _ | ⟨w, rest⟩⟩
  · simp
  · by_cases hv : v ∈ optionValues s q.id <;>
      simp [List.elem_iff, hv]
  · simp

/-- Witness for C4: on the sample select question, ["Red"] is accepted,
[] fails with the count-mismatch error and ["Green"] with the invalid-value
error, all instantiated from the claim theorem. -/
theorem claim_C4_select_validation_witness :
    validate sampleStore ⟨2, "q1", "select", 1⟩ ["Red"] = .ok () ∧
    validate sampleStore ⟨2, "q1", "select", 1⟩ [] = .error .countMismatch ∧
    validate sampleStore ⟨2, "q1", "select", 1⟩ ["Green"] = .error .invalidValue :=
  ⟨(claim_C4_select_validation sampleStore ⟨2, "q1", "select", 1⟩ rfl ["Red"]).1.mpr
      ⟨"Red", rfl, by decide⟩,
   (claim_C4_select_validation sampleStore ⟨2, "q1", "select", 1⟩ rfl []).2.1 (by decide),
   (claim_C4_select_validation sampleStore ⟨2, "q1", "select", 1⟩ rfl ["Green"]).2.2
      "Green" rfl (by decide)⟩

/-- C3: for a Question of type `multiple`, validation accepts iff the
submitted list is non-empty, pairwise distinct, and every value occurs among
the question's option values; the empty list fails with the empty-submission
error and a non-empty list with a duplicate or non-matching value fails with
the invalid-value error. -/
theorem claim_C3_multiple_validation (s : Store) (q : Question)
    (h : q.type = "multiple") (values : List String) :
    (validate s q values = .ok () ↔
      values ≠ [] ∧ values.Nodup ∧ ∀ v ∈ values, v ∈ optionValues s q.id) ∧
    (values = [] → validate s q values = .error .emptySubmission) ∧
    (values ≠ [] → ¬(values.Nodup ∧ ∀ v ∈ values, v ∈ optionValues s q.id) →
      validate s q values = .error .invalidValue) := by
  have heq : validate s q values =
      if values.length = 0 then .error .emptySubmission
      else if values.Nodup ∧ ∀ v ∈ values, v ∈ optionValues s q.id then .ok ()
      else .error .invalidValue := by
    unfold validate
    rw [h]
    rw [if_neg (by decide : ¬("multiple" : String) = "text")]
    rw [if_pos (rfl : ("multiple" : String) = "multiple")]
    by_cases h0 : values.length = 0
    · rw [if_pos h0, if_pos h0]
    · rw [if_neg h0, if_neg h0]
      by_cases hc : values.Nodup ∧ ∀ v ∈ values, v ∈ optionValues s q.id
      · rw [if_pos ((multipleCheck_iff s q.id values).mpr hc), if_pos hc]
      · rw [if_neg (fun hb => hc ((multipleCheck_iff s q.id values).mp hb)), if_neg hc]
  rw [heq]
  by_cases h0 : values.length = 0
  · have hv : values = [] := List.length_eq_zero.mp h0
    simp [h0, hv]
  · have hv : values ≠ [] := fun hcon => h0 (by rw [hcon]; rfl)
    by_cases hc : values.Nodup ∧ ∀ v ∈ values, v ∈ optionValues s q.id
    · simp [h0, hc, hv, hc.1, hc.2]
    · simp [h0, hc, hv]

/-- Witness for C3: on the sample multiple question, ["A", "B"] is accepted,
[] fails with the empty-submission error and ["A", "A"] with the
invalid-value error, all instantiated from the claim theorem. -/
theorem claim_C3_multiple_validation_witness :
    validate sampleStore ⟨3, "q2", "multiple", 1⟩ ["A", "B"] = .ok () ∧
    validate sampleStore ⟨3, "q2", "multiple", 1⟩ [] = .error .emptySubmission ∧
    validate sampleStore ⟨3, "q2", "multiple", 1⟩ ["A", "A"] = .error .invalidValue :=
  ⟨(claim_C3_multiple_validation sampleStore ⟨3, "q2", "multiple", 1⟩ rfl ["A", "B"]).1.mpr
      (by decide),
   (claim_C3_multiple_validation sampleStore ⟨3, "q2", "multiple", 1⟩ rfl []).2.1 rfl,
   (claim_C3_multiple_validation sampleStore ⟨3, "q2", "multiple", 1⟩ rfl ["A", "A"]).2.2
      (by decide) (by decide)⟩

/-! ## Option positioning (C2) -/

/-- C2 counterexample: on the sample store, question 2 already owns the Option
Red at position 0, yet creating a second Option Green at position 0 on the
same question succeeds (no position-conflict failure) and both Options are
stored afterwards: migration 0006 removed the (question, position)
`unique_together` constraint, so the database raises no IntegrityError and the
view's position-conflict handler never fires. -/
theorem claim_C2_counterexample :
    (createOption sampleStore 100 1 1 2 "Green" 0).2 = .ok 20 ∧
    (createOption sampleStore 100 1 1 2 "Green" 0).1.options =
      [⟨6, "Red", 0, 2⟩, ⟨7, "Blue", 1, 2⟩, ⟨8, "A", 0, 3⟩, ⟨9, "B", 1, 3⟩,
       ⟨20, "Green", 0, 2⟩] := by
  constructor <;> rfl

/-- C2 amended: position uniqueness is not enforced. For every store, creating
an Option on a resolvable non-text Question always succeeds and appends the
new Option — even when a sibling Option already occupies the same position —
and every existing Option (the first one included) remains intact. The view's
IntegrityError-to-position-conflict mapping is unreachable for duplicate
positions after migration 0006 dropped the constraint. -/
theorem claim_C2_amended_position_not_unique (s : Store)
    (now userId formId questionId : Nat) (value : String) (position : Int)
    (f : Form) (q : Question)
    (hf : findForm s formId userId = some f)
    (hq : findQuestionInForm s questionId formId = some q)
    (ht : q.type ≠ "text") :
    (createOption s now userId formId questionId value position).2 = .ok s.nextId ∧
    (createOption s now userId formId questionId value position).1.options =
      s.options ++ [⟨s.nextId, value, position, questionId⟩] := by
  unfold createOption
  simp only [hf, hq]
  rw [if_neg ht]
  exact ⟨rfl, rfl⟩

/-- Witness for the amended C2: on the sample store, creating Green2 at the
already-occupied position 0 of question 2 succeeds and appends it after the
intact existing Options. -/
theorem claim_C2_amended_position_not_unique_witness :
    (createOption sampleStore 101 1 1 2 "Green2" 0).2 = .ok 20 ∧
    (createOption sampleStore 101 1 1 2 "Green2" 0).1.options =
      sampleStore.options ++ [⟨20, "Green2", 0, 2⟩] :=
  claim_C2_amended_position_not_unique sampleStore 101 1 1 2 "Green2" 0
    ⟨1, 1, 0, 0, "F", "d"⟩ ⟨2, "q1", "select", 1⟩ (by decide) (by decide) (by decide)

/-! ## Response assembly: support lemmas -/

/-- The Validation Engine never raises the missing-answers error: that error
belongs to the answers-field presence check alone. -/
theorem validate_ne_missingAnswers (s : Store) (q : Question) (values : List String) :
    validate s q values ≠ .error .missingAnswers := by
  unfold validate
  repeat' split
  all_goals simp

/-- The AnswerOption insertion loop never raises the missing-answers error. -/
theorem createAnswerOptions_ne_missingAnswers (answerId : Nat) :
    ∀ (values : List String) (s : Store),
      (createAnswerOptions s answerId values).2 ≠ .error .missingAnswers := by
  intro values
  induction values with
  | nil => intro s; simp [createAnswerOptions]
  | cons v rest ih =>
    intro s
    unfold createAnswerOptions
    split
    · simp
    · exact ih _

/-- The per-entry loop never raises the missing-answers error. -/
theorem processAnswers_ne_missingAnswers (resp : Response) :
    ∀ (entries : List AnswerInput) (s : Store),
      (processAnswers s resp entries).2 ≠ .error .missingAnswers := by
  intro entries
  induction entries with
  | nil => intro s; simp [processAnswers]
  | cons entry rest ih =>
    intro s
    unfold processAnswers
    split
    · simp
    · split
      · next e heq =>
        simp only [ne_eq, Prod.snd]
        intro hcon
        injection hcon with hcon
        rw [hcon] at heq
        exact validate_ne_missingAnswers _ _ _ heq
      · split
        · next s₂ e heq =>
          simp only [ne_eq, Prod.snd]
          intro hcon
          injection hcon with hcon
          subst hcon
          exact createAnswerOptions_ne_missingAnswers _ _ _ (by rw [heq])
        · exact ih _

/-- C8: with the target form present, creating a Response fails with the
missing-answers error exactly when the answers field is absent from the
input (`none`), leaving the store unchanged; an empty answers list is not
rejected: it yields a successfully created Response and zero Answers and
AnswerOptions, regardless of how many Questions the form has. -/
theorem claim_C8_missing_answers (s : Store) (now userId formId : Nat)
    (f : Form) (hf : getForm s formId = some f)
    (answersData : Option (List AnswerInput)) :
    ((createResponse s now userId formId answersData).2 = .error .missingAnswers ↔
      answersData = none) ∧
    (answersData = none → (createResponse s now userId formId answersData).1 = s) ∧
    ((createResponse s now userId formId (some [])).2 = .ok s.nextId ∧
      (createResponse s now userId formId (some [])).1 =
        { s with nextId := s.nextId + 1,
                 responses := s.responses ++ [⟨s.nextId, userId, now, formId⟩] }) := by
  have hnone : (getForm s formId).isNone = false := by rw [hf]; rfl
  have hempty : createResponse s now userId formId (some []) =
      ({ s with nextId := s.nextId + 1,
                responses := s.responses ++ [⟨s.nextId, userId, now, formId⟩] },
        .ok s.nextId) := by
    unfold createResponse
    rw [hnone]
    simp [processAnswers]
  refine ⟨?_, ?_, by rw [hempty], by rw [hempty]⟩
  · cases answersData with
    | none =>
      simp only [iff_true]
      unfold createResponse
      rw [hnone]
      simp
    | some entries =>
      simp only [reduceCtorEq, iff_false]
      unfold createResponse
      rw [hnone]
      simp only [Bool.false_eq_true, if_false]
      split
      · next s₂ e heq =>
        simp only [Prod.snd]
        intro hcon
        injection hcon with hcon
        subst hcon
        exact processAnswers_ne_missingAnswers _ _ _ (by rw [heq])
      · simp
  · intro h
    subst h
    unfold createResponse
    rw [hnone]
    rfl

/-- Witness for C8: on the sample store (whose form has four questions), an
absent answers field fails with the missing-answers error while an empty list
creates a Response, both instantiated from the claim theorem. -/
theorem claim_C8_missing_answers_witness :
    (createResponse sampleStore 100 9 1 none).2 = .error .missingAnswers ∧
    (createResponse sampleStore 100 9 1 (some [])).2 = .ok 20 :=
  ⟨(claim_C8_missing_answers sampleStore 100 9 1 ⟨1, 1, 0, 0, "F", "d"⟩
      (by decide) none).1.mpr rfl,
   (claim_C8_missing_answers sampleStore 100 9 1 ⟨1, 1, 0, 0, "F", "d"⟩
      (by decide) none).2.2.1⟩

/-- The AnswerOption insertion loop writes only AnswerOption rows and the id
counter: every other table is untouched and the counter never decreases. -/
theorem createAnswerOptions_preserves (answerId : Nat) :
    ∀ (values : List String) (s : Store),
      (createAnswerOptions s answerId values).1.forms = s.forms ∧
      (createAnswerOptions s answerId values).1.questions = s.questions ∧
      (createAnswerOptions s answerId values).1.options = s.options ∧
      (createAnswerOptions s answerId values).1.responses = s.responses ∧
      (createAnswerOptions s answerId values).1.answers = s.answers ∧
      s.nextId ≤ (createAnswerOptions s answerId values).1.nextId := by
  intro values
  induction values with
  | nil => intro s; simp [createAnswerOptions]
  | cons v rest ih =>
    intro s
    unfold createAnswerOptions
    split
    · simp
    · obtain ⟨h1, h2, h3, h4, h5, h6⟩ := ih
        { s with nextId := s.nextId + 1,
                 answerOptions := s.answerOptions ++ [⟨s.nextId, v, answerId⟩] }
      exact ⟨h1, h2, h3, h4, h5, Nat.le_trans (Nat.le_succ _) h6⟩

/-- When the submitted values are pairwise distinct and no stored AnswerOption
already pairs this answer id with one of them, the insertion loop succeeds,
appends exactly one row per value (in order), and every row of the result is
either an old row or a row for this answer id. -/
theorem createAnswerOptions_ok (answerId : Nat) :
    ∀ (values : List String) (s : Store), values.Nodup →
      (∀ ao ∈ s.answerOptions, ¬(ao.answerId = answerId ∧ ao.value ∈ values)) →
      (createAnswerOptions s answerId values).2 = .ok () ∧
      (createAnswerOptions s answerId values).1.answerOptions.map (fun ao => ao.value) =
        s.answerOptions.map (fun ao => ao.value) ++ values ∧
      (∀ ao ∈ (createAnswerOptions s answerId values).1.answerOptions,
        ao ∈ s.answerOptions ∨ ao.answerId = answerId) := by
  intro values
  induction values with
  | nil =>
    intro s _ _
    exact ⟨rfl, by simp [createAnswerOptions], fun ao h => Or.inl h⟩
  | cons v rest ih =>
    intro s hnd hfresh
    have hany : (s.answerOptions.any
        (fun ao => ao.answerId == answerId && ao.value == v)) = false := by
      rw [Bool.eq_false_iff]
      intro hcon
      obtain ⟨ao, hao, hp⟩ := List.any_eq_true.mp hcon
      rw [Bool.and_eq_true, beq_iff_eq, beq_iff_eq] at hp
      exact hfresh ao hao ⟨hp.1, hp.2 ▸ List.mem_cons_self v rest⟩
    unfold createAnswerOptions
    rw [hany]
    simp only [Bool.false_eq_true, if_false]
    have hnd' : rest.Nodup := (List.nodup_cons.mp hnd).2
    have hvnot : v ∉ rest := (List.nodup_cons.mp hnd).1
    obtain ⟨hok, hmap, hmem⟩ := ih
      { s with nextId := s.nextId + 1,
               answerOptions := s.answerOptions ++ [⟨s.nextId, v, answerId⟩] }
      hnd'
      (by
        intro ao hao hcon
        rcases List.mem_append.mp hao with h | h
        · exact hfresh ao h ⟨hcon.1, List.mem_cons_of_mem v hcon.2⟩
        · have : ao = ⟨s.nextId, v, answerId⟩ := List.mem_singleton.mp h
          rw [this] at hcon
          exact hvnot hcon.2)
    refine ⟨hok, ?_, ?_⟩
    · rw [hmap]
      simp
    · intro ao hao
      rcases hmem ao hao with h | h
      · rcases List.mem_append.mp h with h' | h'
        · exact Or.inl h'
        · have : ao = ⟨s.nextId, v, answerId⟩ := List.mem_singleton.mp h'
          rw [this]
          exact Or.inr rfl
      · exact Or.inr h

/-- Question lookup depends only on the questions table. -/
theorem findQuestionInForm_congr (s₁ s₂ : Store) (h : s₁.questions = s₂.questions)
    (questionId formId : Nat) :
    findQuestionInForm s₁ questionId formId = findQuestionInForm s₂ questionId formId := by
  unfold findQuestionInForm
  rw [h]

/-- Validation depends only on the options table. -/
theorem validate_congr (s₁ s₂ : Store) (h : s₁.options = s₂.options)
    (q : Question) (values : List String) :
    validate s₁ q values = validate s₂ q values := by
  unfold validate optionValues
  simp only [h]

/-- Processability of an entry depends only on the questions and options
tables. -/
theorem entryOk_congr (s₁ s₂ : Store) (hq : s₁.questions = s₂.questions)
    (ho : s₁.options = s₂.options) (formId : Nat) (e : AnswerInput) :
    entryOk s₁ formId e ↔ entryOk s₂ formId e := by
  unfold entryOk
  constructor
  · rintro ⟨q, h1, h2, h3⟩
    exact ⟨q, (findQuestionInForm_congr s₁ s₂ hq _ _) ▸ h1,
      (validate_congr s₁ s₂ ho q _) ▸ h2, h3⟩
  · rintro ⟨q, h1, h2, h3⟩
    exact ⟨q, (findQuestionInForm_congr s₁ s₂ hq _ _).symm ▸ h1,
      (validate_congr s₁ s₂ ho q _).symm ▸ h2, h3⟩

/-- The per-entry loop writes only Answer and AnswerOption rows and the id
counter. -/
theorem processAnswers_preserves (resp : Response) :
    ∀ (entries : List AnswerInput) (s : Store),
      (processAnswers s resp entries).1.forms = s.forms ∧
      (processAnswers s resp entries).1.questions = s.questions ∧
      (processAnswers s resp entries).1.options = s.options ∧
      (processAnswers s resp entries).1.responses = s.responses ∧
      s.nextId ≤ (processAnswers s resp entries).1.nextId := by
  intro entries
  induction entries with
  | nil => intro s; simp [processAnswers]
  | cons entry rest ih =>
    intro s
    unfold processAnswers
    split
    · simp
    · next q hq =>
      split
      · simp
      · next u hv =>
        split
        · next s₂ e heq =>
          have hpres := createAnswerOptions_preserves s.nextId entry.answer_options
            { s with nextId := s.nextId + 1,
                     answers := s.answers ++ [⟨s.nextId, q.id, resp.id⟩] }
          rw [heq] at hpres
          exact ⟨hpres.1, hpres.2.1, hpres.2.2.1, hpres.2.2.2.1,
            Nat.le_trans (Nat.le_succ _) hpres.2.2.2.2.2⟩
        · next s₂ u' heq =>
          have hpres := createAnswerOptions_preserves s.nextId entry.answer_options
            { s with nextId := s.nextId + 1,
                     answers := s.answers ++ [⟨s.nextId, q.id, resp.id⟩] }
          rw [heq] at hpres
          obtain ⟨h1, h2, h3, h4, h5, h6⟩ := hpres
          obtain ⟨g1, g2, g3, g4, g5⟩ := ih s₂
          exact ⟨g1.trans h1, g2.trans h2, g3.trans h3, g4.trans h4,
            Nat.le_trans (Nat.le_trans (Nat.le_succ _) h6) g5⟩

/-- Running the per-entry loop over a prefix of processable entries reaches
the remaining entries in a store that differs only in the Answer and
AnswerOption tables and the id counter: one Answer per prefix entry and one
AnswerOption per submitted value have been appended. -/
theorem processAnswers_prefix (resp : Response) :
    ∀ (pre rest : List AnswerInput) (s : Store),
      (∀ e ∈ pre, entryOk s resp.formId e) →
      AOBound s →
      ∃ s', processAnswers s resp (pre ++ rest) = processAnswers s' resp rest ∧
        s'.forms = s.forms ∧ s'.questions = s.questions ∧ s'.options = s.options ∧
        s'.responses = s.responses ∧ s.nextId ≤ s'.nextId ∧ AOBound s' ∧
        s'.answers.length = s.answers.length + pre.length ∧
        s'.answerOptions.map (fun ao => ao.value) =
          s.answerOptions.map (fun ao => ao.value) ++
            (pre.map (fun e => e.answer_options)).flatten := by
  intro pre
  induction pre with
  | nil =>
    intro rest s _ hb
    exact ⟨s, rfl, rfl, rfl, rfl, rfl, Nat.le_refl _, hb, rfl, by simp⟩
  | cons e pre ih =>
    intro rest s hok hb
    obtain ⟨q, hq, hv, hnd⟩ := hok e (List.mem_cons_self e pre)
    have hstep : processAnswers s resp ((e :: pre) ++ rest) =
        match createAnswerOptions
            { s with nextId := s.nextId + 1,
                     answers := s.answers ++ [⟨s.nextId, q.id, resp.id⟩] }
            s.nextId e.answer_options with
        | (s₂, .error err) => (s₂, .error err)
        | (s₂, .ok _) => processAnswers s₂ resp (pre ++ rest) := by
      rw [List.cons_append]
      conv_lhs => rw [processAnswers]
      simp only [hq, hv]
    set s₁ : Store :=
      { s with nextId := s.nextId + 1,
               answers := s.answers ++ [⟨s.nextId, q.id, resp.id⟩] } with hs₁
    obtain ⟨hok₂, hmap₂, hmem₂⟩ := createAnswerOptions_ok s.nextId e.answer_options s₁
      hnd
      (by
        intro ao hao hcon
        have : ao.answerId < s.nextId := hb ao hao
        rw [hcon.1] at this
        exact Nat.lt_irrefl _ this)
    obtain ⟨hp1, hp2, hp3, hp4, hp5, hp6⟩ :=
      createAnswerOptions_preserves s.nextId e.answer_options s₁
    set s₂ : Store := (createAnswerOptions s₁ s.nextId e.answer_options).1 with hs₂
    have hpair : createAnswerOptions s₁ s.nextId e.answer_options = (s₂, .ok ()) := by
      rw [hs₂]
      exact Prod.ext rfl hok₂
    rw [hpair] at hstep
    have hstep' : processAnswers s resp ((e :: pre) ++ rest) =
        processAnswers s₂ resp (pre ++ rest) := hstep
    have hb₂ : AOBound s₂ := by
      intro ao hao
      rcases hmem₂ ao hao with h | h
      · have : ao.answerId < s.nextId := hb ao h
        exact Nat.lt_of_lt_of_le this (Nat.le_trans (Nat.le_succ _) hp6)
      · rw [h]
        exact Nat.lt_of_lt_of_le (Nat.lt_succ_self _) hp6
    have hok₂' : ∀ e' ∈ pre, entryOk s₂ resp.formId e' := by
      intro e' he'
      exact (entryOk_congr s s₂ hp2.symm hp3.symm resp.formId e').mp
        (hok e' (List.mem_cons_of_mem e he'))
    obtain ⟨s', heq', g1, g2, g3, g4, g5, g6, g7, g8⟩ := ih rest s₂ hok₂' hb₂
    refine ⟨s', by rw [hstep', heq'], g1.trans hp1, g2.trans hp2, g3.trans hp3,
      g4.trans hp4, Nat.le_trans (Nat.le_trans (Nat.le_succ _) hp6) g5, g6, ?_, ?_⟩
    · rw [g7, hp5]
      simp only [hs₁, List.length_append, List.length_cons, List.length_nil]
      omega
    · rw [g8, hmap₂]
      simp [hs₁]

/-- If the per-entry loop succeeds, every entry's question resolved inside the
form and its values passed validation (judged against the starting store,
whose questions and options tables the loop never changes). -/
theorem processAnswers_ok_entries (resp : Response) :
    ∀ (entries : List AnswerInput) (s : Store),
      (processAnswers s resp entries).2 = .ok () →
      ∀ e ∈ entries, ∃ q, findQuestionInForm s e.question resp.formId = some q ∧
        validate s q e.answer_options = .ok () := by
  intro entries
  induction entries with
  | nil => intro s _ e he; cases he
  | cons entry rest ih =>
    intro s hrun e he
    unfold processAnswers at hrun
    revert hrun
    split
    · intro hrun; cases hrun
    · next q hq =>
      split
      · intro hrun; cases hrun
      · next u hv =>
        split
        · intro hrun; cases hrun
        · next s₂ u' heq =>
          intro hrun
          rcases List.mem_cons.mp he with he' | he'
          · subst he'
            exact ⟨q, hq, by rw [hv]⟩
          · obtain ⟨q', hq', hv'⟩ := ih s₂ hrun e he'
            have hpres := createAnswerOptions_preserves s.nextId entry.answer_options
              { s with nextId := s.nextId + 1,
                       answers := s.answers ++ [⟨s.nextId, q.id, resp.id⟩] }
            rw [heq] at hpres
            refine ⟨q', ?_, ?_⟩
            · rw [findQuestionInForm_congr s s₂ hpres.2.1.symm]
              exact hq'
            · rw [validate_congr s s₂ hpres.2.2.1.symm]
              exact hv'

/-- The Validation Engine performs no check at all for a question whose type
is none of 'text', 'select' and 'multiple': every submitted value list is
accepted. -/
theorem validate_unknown_type (s : Store) (q : Question) (values : List String)
    (ht : q.type ≠ "text") (hsel : q.type ≠ "select") (hm : q.type ≠ "multiple") :
    validate s q values = .ok () := by
  unfold validate
  rw [if_neg ht, if_neg hm, if_neg hsel]

/-- Without the form, the serializer's create fails before touching the
store. -/
theorem createResponse_noForm (s : Store) (now userId formId : Nat)
    (answersData : Option (List AnswerInput))
    (h : (getForm s formId).isNone = true) :
    createResponse s now userId formId answersData = (s, .error .formNotFound) := by
  unfold createResponse
  rw [h]
  rfl

/-- With the form present, the serializer's create on a supplied answers list
is the outer match over the per-entry loop run from the store holding the
freshly created Response. -/
theorem createResponse_some_eq (s : Store) (now userId formId : Nat)
    (entries : List AnswerInput) (h : (getForm s formId).isNone = false) :
    createResponse s now userId formId (some entries) =
      match processAnswers
          { s with nextId := s.nextId + 1,
                   responses := s.responses ++ [⟨s.nextId, userId, now, formId⟩] }
          ⟨s.nextId, userId, now, formId⟩ entries with
      | (s₂, .error e) => (s₂, .error e)
      | (s₂, .ok _) => (s₂, .ok s.nextId) := by
  unfold createResponse
  rw [h]
  rfl

/-- C9: an answer entry whose question reference does not resolve to a
Question of the target Form (a Question of another Form included) makes the
operation fail: once the entries before it have been processed, the surfaced
error is the question-not-found error; and in every case the presence of such
an entry prevents success. -/
theorem claim_C9_question_not_found (s : Store) (now userId formId : Nat)
    (f : Form) (hf : getForm s formId = some f)
    (entries : List AnswerInput) :
    (∀ (pre rest : List AnswerInput) (e : AnswerInput),
      entries = pre ++ e :: rest →
      (∀ e' ∈ pre, entryOk s formId e') → AOBound s →
      findQuestionInForm s e.question formId = none →
      (createResponse s now userId formId (some entries)).2 =
        .error .questionNotFound) ∧
    ((∃ e ∈ entries, findQuestionInForm s e.question formId = none) →
      ∀ r, (createResponse s now userId formId (some entries)).2 ≠ .ok r) := by
  have hnone : (getForm s formId).isNone = false := by rw [hf]; rfl
  constructor
  · intro pre rest e hsplit hpre hb hlook
    subst hsplit
    rw [createResponse_some_eq s now userId formId _ hnone]
    obtain ⟨s', heq', g1, g2, g3, g4, g5, g6, g7, g8⟩ :=
      processAnswers_prefix ⟨s.nextId, userId, now, formId⟩ pre (e :: rest)
        { s with nextId := s.nextId + 1,
                 responses := s.responses ++ [⟨s.nextId, userId, now, formId⟩] }
        (fun e' he' => hpre e' he')
        (fun ao hao => Nat.lt_trans (hb ao hao) (Nat.lt_succ_self _))
    rw [heq']
    have hlook' : findQuestionInForm s' e.question
        (⟨s.nextId, userId, now, formId⟩ : Response).formId = none := by
      rw [findQuestionInForm_congr s' s (by rw [g2])]
      exact hlook
    conv_lhs => rw [processAnswers]
    rw [hlook']
  · rintro ⟨e, he, hlook⟩ r hcon
    rw [createResponse_some_eq s now userId formId _ hnone] at hcon
    rcases hpa : processAnswers
        { s with nextId := s.nextId + 1,
                 responses := s.responses ++ [⟨s.nextId, userId, now, formId⟩] }
        ⟨s.nextId, userId, now, formId⟩ entries with ⟨s₂, res⟩
    rw [hpa] at hcon
    cases res with
    | error err => cases hcon
    | ok u =>
      obtain ⟨q, hq, _⟩ :=
        processAnswers_ok_entries ⟨s.nextId, userId, now, formId⟩ entries
          { s with nextId := s.nextId + 1,
                   responses := s.responses ++ [⟨s.nextId, userId, now, formId⟩] }
          (by rw [hpa]) e he
      have hq2 : findQuestionInForm s e.question formId = some q := hq
      rw [hlook] at hq2
      cases hq2

/-- C1 (with the transaction boundary modelled from spec §5 around the
serializer's create): whenever some answer entry fails question lookup or
validation, the whole operation surfaces an error and the store afterwards is
exactly the store before — no Response, Answer, or AnswerOption created by
this call survives. -/
theorem claim_C1_all_or_nothing (s : Store) (now userId formId : Nat)
    (entries : List AnswerInput)
    (hbad : ∃ e ∈ entries, badEntry s formId e) :
    ∃ err, createResponseTx s now userId formId (some entries) =
      (s, .error err) := by
  unfold createResponseTx
  rcases hcr : createResponse s now userId formId (some entries) with ⟨s', res⟩
  cases res with
  | error err => exact ⟨err, rfl⟩
  | ok r =>
    exfalso
    obtain ⟨e, he, hbad_e⟩ := hbad
    by_cases hgf : (getForm s formId).isNone = true
    · rw [createResponse_noForm s now userId formId _ hgf] at hcr
      simp at hcr
    · rw [Bool.not_eq_true] at hgf
      rw [createResponse_some_eq s now userId formId _ hgf] at hcr
      rcases hpa : processAnswers
          { s with nextId := s.nextId + 1,
                   responses := s.responses ++ [⟨s.nextId, userId, now, formId⟩] }
          ⟨s.nextId, userId, now, formId⟩ entries with ⟨s₂, res₂⟩
      rw [hpa] at hcr
      cases res₂ with
      | error err => cases hcr
      | ok u =>
        obtain ⟨q, hq, hv⟩ :=
          processAnswers_ok_entries ⟨s.nextId, userId, now, formId⟩ entries
            { s with nextId := s.nextId + 1,
                     responses := s.responses ++ [⟨s.nextId, userId, now, formId⟩] }
            (by rw [hpa]) e he
        have hq2 : findQuestionInForm s e.question formId = some q := hq
        have hv2 : validate s q e.answer_options = .ok () := hv
        cases hbad_e with
        | inl hnone2 => rw [hnone2] at hq2; cases hq2
        | inr hex =>
          obtain ⟨q', hq', hv'⟩ := hex
          rw [hq'] at hq2
          injection hq2 with hq2
          subst hq2
          exact hv' hv2

/-- Witness for C1: on the sample store, submitting one valid answer (Red for
the select question) together with one invalid answer (Green, matching no
option) makes the whole operation fail and leaves the store unchanged,
instantiated from the claim theorem. -/
theorem claim_C1_all_or_nothing_witness :
    ∃ err, createResponseTx sampleStore 100 9 1
      (some [⟨2, ["Red"]⟩, ⟨2, ["Green"]⟩]) = (sampleStore, .error err) :=
  claim_C1_all_or_nothing sampleStore 100 9 1 [⟨2, ["Red"]⟩, ⟨2, ["Green"]⟩]
    ⟨⟨2, ["Green"]⟩, by decide,
      Or.inr ⟨⟨2, "q1", "select", 1⟩, by decide, fun h => nomatch h⟩⟩

/-- Witness for C9: on the sample store, an answers list whose first entry is
valid and whose second entry references the nonexistent question 99 fails
with the question-not-found error, instantiated from the claim theorem. -/
theorem claim_C9_question_not_found_witness :
    (createResponse sampleStore 100 9 1
      (some [⟨2, ["Red"]⟩, ⟨99, ["x"]⟩])).2 = .error .questionNotFound :=
  (claim_C9_question_not_found sampleStore 100 9 1 ⟨1, 1, 0, 0, "F", "d"⟩
      (by decide) [⟨2, ["Red"]⟩, ⟨99, ["x"]⟩]).1
    [⟨2, ["Red"]⟩] [] ⟨99, ["x"]⟩ rfl
    (by
      intro e' he'
      rw [List.mem_singleton] at he'
      subst he'
      exact ⟨⟨2, "q1", "select", 1⟩, by decide, rfl, by decide⟩)
    (fun ao hao => absurd hao (List.not_mem_nil ao))
    (by decide)

/-- C10 counterexample: on the sample store, question 5 has the
out-of-choices type "date"; submitting the duplicate value list ["x", "x"]
for it is NOT accepted: the second AnswerOption insert violates the
database's (value, answer) uniqueness constraint, so the operation raises
IntegrityError after creating the Answer and only the first AnswerOption —
not one AnswerOption per submitted value. -/
theorem claim_C10_counterexample :
    (createResponse sampleStore 100 9 1 (some [⟨5, ["x", "x"]⟩])).2 =
      .error .integrityError ∧
    (createResponse sampleStore 100 9 1 (some [⟨5, ["x", "x"]⟩])).1.answers.length = 1 ∧
    (createResponse sampleStore 100 9 1
      (some [⟨5, ["x", "x"]⟩])).1.answerOptions.length = 1 :=
  ⟨rfl, rfl, rfl⟩

/-- C10 amended: for an answer entry whose resolved Question has a type that
is none of 'text', 'select' and 'multiple', the serializer performs no
validation — any duplicate-free value list, the empty list included, is
accepted (after any prefix of processable entries), and one Answer plus one
AnswerOption per submitted value is created; a value list with duplicates
instead trips the store's (value, answer) uniqueness constraint
(IntegrityError) after the Answer and the first occurrence are created. -/
theorem claim_C10_amended_unknown_type (s : Store) (now userId formId : Nat)
    (f : Form) (hf : getForm s formId = some f)
    (pre : List AnswerInput) (e : AnswerInput) (q : Question)
    (hpre : ∀ e' ∈ pre, entryOk s formId e')
    (hb : AOBound s)
    (hq : findQuestionInForm s e.question formId = some q)
    (ht : q.type ≠ "text") (hsel : q.type ≠ "select") (hm : q.type ≠ "multiple")
    (hnd : e.answer_options.Nodup) :
    validate s q e.answer_options = .ok () ∧
    (createResponse s now userId formId (some (pre ++ [e]))).2 = .ok s.nextId ∧
    (createResponse s now userId formId (some (pre ++ [e]))).1.answers.length =
      s.answers.length + (pre.length + 1) ∧
    (createResponse s now userId formId (some (pre ++ [e]))).1.answerOptions.map
        (fun ao => ao.value) =
      s.answerOptions.map (fun ao => ao.value) ++
        ((pre ++ [e]).map (fun e' => e'.answer_options)).flatten := by
  have hnone : (getForm s formId).isNone = false := by rw [hf]; rfl
  have hvok : validate s q e.answer_options = .ok () :=
    validate_unknown_type s q _ ht hsel hm
  have hok_all : ∀ e' ∈ pre ++ [e], entryOk s formId e' := by
    intro e' he'
    rcases List.mem_append.mp he' with h | h
    · exact hpre e' h
    · rw [List.mem_singleton] at h
      subst h
      exact ⟨q, hq, hvok, hnd⟩
  rw [createResponse_some_eq s now userId formId _ hnone]
  obtain ⟨s', heq', g1, g2, g3, g4, g5, g6, g7, g8⟩ :=
    processAnswers_prefix ⟨s.nextId, userId, now, formId⟩ (pre ++ [e]) []
      { s with nextId := s.nextId + 1,
               responses := s.responses ++ [⟨s.nextId, userId, now, formId⟩] }
      (fun e' he' => hok_all e' he')
      (fun ao hao => Nat.lt_trans (hb ao hao) (Nat.lt_succ_self _))
  rw [List.append_nil] at heq'
  rw [heq']
  have h0 : processAnswers s' ⟨s.nextId, userId, now, formId⟩ [] = (s', .ok ()) := rfl
  rw [h0]
  refine ⟨hvok, rfl, ?_, ?_⟩
  · show s'.answers.length = s.answers.length + (pre.length + 1)
    rw [g7]
    simp
  · show s'.answerOptions.map (fun ao => ao.value) =
      s.answerOptions.map (fun ao => ao.value) ++
        ((pre ++ [e]).map (fun e' => e'.answer_options)).flatten
    exact g8

/-- Witness for the amended C10: on the sample store, submitting the
duplicate-free list ["x", "y"] for the "date"-typed question 5 passes with no
validation, creating one Answer and the two AnswerOptions x and y,
instantiated from the claim theorem. -/
theorem claim_C10_amended_unknown_type_witness :
    validate sampleStore ⟨5, "q4", "date", 1⟩ ["x", "y"] = .ok () ∧
    (createResponse sampleStore 100 9 1 (some [⟨5, ["x", "y"]⟩])).2 = .ok 20 ∧
    (createResponse sampleStore 100 9 1 (some [⟨5, ["x", "y"]⟩])).1.answers.length = 1 ∧
    (createResponse sampleStore 100 9 1 (some [⟨5, ["x", "y"]⟩])).1.answerOptions.map
        (fun ao => ao.value) = ["x", "y"] :=
  claim_C10_amended_unknown_type sampleStore 100 9 1 ⟨1, 1, 0, 0, "F", "d"⟩
    (by decide) [] ⟨5, ["x", "y"]⟩ ⟨5, "q4", "date", 1⟩
    (fun e' he' => absurd he' (List.not_mem_nil e'))
    (fun ao hao => absurd hao (List.not_mem_nil ao))
    (by decide) (by decide) (by decide) (by decide) (by decide)


/-! ## The text-question invariant (C6) -/

/-- Facts from a successful scoped question lookup: membership and the
matched keys. -/
theorem findQuestionInForm_spec (s : Store) (questionId formId : Nat)
    (q : Question) (h : findQuestionInForm s questionId formId = some q) :
    q ∈ s.questions ∧ q.id = questionId ∧ q.formId = formId := by
  unfold findQuestionInForm at h
  have hp := List.find?_some h
  rw [Bool.and_eq_true, beq_iff_eq, beq_iff_eq] at hp
  exact ⟨List.mem_of_find?_eq_some h, hp.1, hp.2⟩

/-- With the form present, an absent answers field aborts before any write. -/
theorem createResponse_noAnswers (s : Store) (now userId formId : Nat)
    (h : (getForm s formId).isNone = false) :
    createResponse s now userId formId none = (s, .error .missingAnswers) := by
  unfold createResponse
  rw [h]
  rfl

/-- The serializer's create never writes to the form, question or option
tables and never decreases the id counter. -/
theorem createResponse_preserves (s : Store) (now userId formId : Nat)
    (answersData : Option (List AnswerInput)) :
    (createResponse s now userId formId answersData).1.questions = s.questions ∧
    (createResponse s now userId formId answersData).1.options = s.options ∧
    (createResponse s now userId formId answersData).1.forms = s.forms ∧
    s.nextId ≤ (createResponse s now userId formId answersData).1.nextId := by
  by_cases h : (getForm s formId).isNone = true
  · rw [createResponse_noForm s now userId formId answersData h]
    exact ⟨rfl, rfl, rfl, Nat.le_refl _⟩
  · rw [Bool.not_eq_true] at h
    cases answersData with
    | none =>
      rw [createResponse_noAnswers s now userId formId h]
      exact ⟨rfl, rfl, rfl, Nat.le_refl _⟩
    | some entries =>
      rw [createResponse_some_eq s now userId formId entries h]
      obtain ⟨g1, g2, g3, g4, g5⟩ :=
        processAnswers_preserves ⟨s.nextId, userId, now, formId⟩ entries
          { s with nextId := s.nextId + 1,
                   responses := s.responses ++ [⟨s.nextId, userId, now, formId⟩] }
      rcases hpa : processAnswers
          { s with nextId := s.nextId + 1,
                   responses := s.responses ++ [⟨s.nextId, userId, now, formId⟩] }
          ⟨s.nextId, userId, now, formId⟩ entries with ⟨s₂, res⟩
      rw [hpa] at g1 g2 g3 g4 g5
      cases res with
      | error e => exact ⟨g2, g3, g1, Nat.le_trans (Nat.le_succ _) g5⟩
      | ok u => exact ⟨g2, g3, g1, Nat.le_trans (Nat.le_succ _) g5⟩

/-- The transaction-wrapped create inherits the same frame conditions. -/
theorem createResponseTx_preserves (s : Store) (now userId formId : Nat)
    (answersData : Option (List AnswerInput)) :
    (createResponseTx s now userId formId answersData).1.questions = s.questions ∧
    (createResponseTx s now userId formId answersData).1.options = s.options ∧
    (createResponseTx s now userId formId answersData).1.forms = s.forms ∧
    s.nextId ≤ (createResponseTx s now userId formId answersData).1.nextId := by
  unfold createResponseTx
  obtain ⟨g1, g2, g3, g4⟩ := createResponse_preserves s now userId formId answersData
  rcases hcr : createResponse s now userId formId answersData with ⟨s', res⟩
  rw [hcr] at g1 g2 g3 g4
  cases res with
  | error e => exact ⟨rfl, rfl, rfl, Nat.le_refl _⟩
  | ok r => exact ⟨g1, g2, g3, g4⟩


/-- Every modelled operation preserves store well-formedness and the
invariant that a text Question owns no Options. -/
theorem invariants_applyOp (s : Store) (op : Op)
    (hwf : WFQ s) (htno : TextNoOptions s) :
    WFQ (applyOp s op) ∧ TextNoOptions (applyOp s op) := by
  obtain ⟨hnd, hqb, hob⟩ := hwf
  cases op with
  | createQuestion now userId formId text ty =>
    show WFQ (createQuestion s now userId formId text ty).1 ∧
      TextNoOptions (createQuestion s now userId formId text ty).1
    unfold createQuestion
    cases hff : findForm s formId userId with
    | none => exact ⟨⟨hnd, hqb, hob⟩, htno⟩
    | some fm =>
      dsimp only
      by_cases hty : (!questionTypeChoices.contains ty) = true
      · rw [if_pos hty]
        exact ⟨⟨hnd, hqb, hob⟩, htno⟩
      · rw [if_neg hty]
        refine ⟨⟨?_, ?_, ?_⟩, ?_⟩
        · show ((s.questions ++ [(⟨s.nextId, text, ty, formId⟩ : Question)]).map
            (fun q => q.id)).Nodup
          rw [List.map_append, List.nodup_append]
          refine ⟨hnd, List.nodup_singleton _, ?_⟩
          intro a ha hmem
          rw [List.map_singleton, List.mem_singleton] at hmem
          subst hmem
          obtain ⟨q, hq, hid⟩ := List.mem_map.mp ha
          have hlt := hqb q hq
          rw [hid] at hlt
          exact Nat.lt_irrefl _ hlt
        · intro q hq
          rcases List.mem_append.mp hq with h | h
          · exact Nat.lt_trans (hqb q h) (Nat.lt_succ_self _)
          · rw [List.mem_singleton] at h
            subst h
            exact Nat.lt_succ_self _
        · intro o ho
          exact Nat.lt_trans (hob o ho) (Nat.lt_succ_self _)
        · intro q hq hqt o ho
          rcases List.mem_append.mp hq with h | h
          · exact htno q h hqt o ho
          · rw [List.mem_singleton] at h
            subst h
            exact Nat.ne_of_lt (hob o ho)
  | updateQuestion now userId formId questionId newText newType =>
    show WFQ (updateQuestion s now userId formId questionId newText newType).1 ∧
      TextNoOptions (updateQuestion s now userId formId questionId newText newType).1
    unfold updateQuestion
    cases hff : findForm s formId userId with
    | none => exact ⟨⟨hnd, hqb, hob⟩, htno⟩
    | some fm =>
      cases hfq : findQuestionInForm s questionId formId with
      | none => exact ⟨⟨hnd, hqb, hob⟩, htno⟩
      | some q0 =>
        dsimp only
        by_cases hty : (match newType with
            | some t => !questionTypeChoices.contains t
            | none => false) = true
        · rw [if_pos hty]
          exact ⟨⟨hnd, hqb, hob⟩, htno⟩
        · rw [if_neg hty]
          have hidU : ∀ qq : Question,
              (updView questionId newText newType qq).id = qq.id := by
            intro qq
            unfold updView
            split <;> rfl
          have hmapids :
              ((s.questions.map (updView questionId newText newType)).map
                (fun q => q.id)) = s.questions.map (fun q => q.id) := by
            rw [List.map_map]
            exact List.map_congr_left (fun a _ => hidU a)
          by_cases hnt : newType = some "text"
          · rw [if_pos hnt]
            refine ⟨⟨?_, ?_, ?_⟩, ?_⟩
            · show (((deleteOptionsOf s questionId).questions.map
                (updView questionId newText newType)).map (fun q => q.id)).Nodup
              rw [show (deleteOptionsOf s questionId).questions = s.questions from rfl]
              rw [hmapids]
              exact hnd
            · intro q hq
              obtain ⟨q1, hq1, rfl⟩ := List.mem_map.mp hq
              rw [hidU q1]
              exact hqb q1 hq1
            · intro o ho
              exact hob o (List.mem_filter.mp ho).1
            · intro q hq hqt o ho
              obtain ⟨q1, hq1, rfl⟩ := List.mem_map.mp hq
              rw [hidU q1]
              have hoin := (List.mem_filter.mp ho).1
              have hopred := (List.mem_filter.mp ho).2
              rw [Bool.not_eq_eq_eq_not, Bool.not_true, beq_eq_false_iff_ne] at hopred
              by_cases hqq : q1.id = questionId
              · rw [hqq]
                exact hopred
              · have hUq : updView questionId newText newType q1 = q1 := by
                  unfold updView
                  rw [if_neg (fun h => hqq (beq_iff_eq.mp h))]
                rw [hUq] at hqt
                exact htno q1 hq1 hqt o hoin
          · rw [if_neg hnt]
            refine ⟨⟨?_, ?_, ?_⟩, ?_⟩
            · show ((s.questions.map
                (updView questionId newText newType)).map (fun q => q.id)).Nodup
              rw [hmapids]
              exact hnd
            · intro q hq
              obtain ⟨q1, hq1, rfl⟩ := List.mem_map.mp hq
              rw [hidU q1]
              exact hqb q1 hq1
            · intro o ho
              exact hob o ho
            · intro q hq hqt o ho
              obtain ⟨q1, hq1, rfl⟩ := List.mem_map.mp hq
              rw [hidU q1]
              by_cases hqq : q1.id = questionId
              · have htypeU : (updView questionId newText newType q1).type =
                    newType.getD q1.type := by
                  unfold updView
                  rw [if_pos (beq_iff_eq.mpr hqq)]
                rw [htypeU] at hqt
                cases hnt2 : newType with
                | none =>
                  rw [hnt2] at hqt
                  have hqt2 : q1.type = "text" := hqt
                  exact htno q1 hq1 hqt2 o ho
                | some t =>
                  rw [hnt2] at hqt
                  have hqt2 : t = "text" := hqt
                  rw [hnt2, hqt2] at hnt
                  exact absurd rfl hnt
              · have hUq : updView questionId newText newType q1 = q1 := by
                  unfold updView
                  rw [if_neg (fun h => hqq (beq_iff_eq.mp h))]
                rw [hUq] at hqt
                exact htno q1 hq1 hqt o ho
  | deleteQuestion now userId formId questionId =>
    show WFQ (deleteQuestion s now userId formId questionId).1 ∧
      TextNoOptions (deleteQuestion s now userId formId questionId).1
    unfold deleteQuestion
    cases hff : findForm s formId userId with
    | none => exact ⟨⟨hnd, hqb, hob⟩, htno⟩
    | some fm =>
      cases hfq : findQuestionInForm s questionId formId with
      | none => exact ⟨⟨hnd, hqb, hob⟩, htno⟩
      | some q0 =>
        dsimp only
        refine ⟨⟨?_, ?_, ?_⟩, ?_⟩
        · show ((s.questions.filter (fun q => !(q.id == questionId))).map
            (fun q => q.id)).Nodup
          exact List.Nodup.sublist (List.Sublist.map _ (List.filter_sublist _)) hnd
        · intro q hq
          exact hqb q (List.mem_filter.mp hq).1
        · intro o ho
          exact hob o (List.mem_filter.mp ho).1
        · intro q hq hqt o ho
          exact htno q (List.mem_filter.mp hq).1 hqt o (List.mem_filter.mp ho).1
  | createOption now userId formId questionId v p =>
    show WFQ (createOption s now userId formId questionId v p).1 ∧
      TextNoOptions (createOption s now userId formId questionId v p).1
    unfold createOption
    cases hff : findForm s formId userId with
    | none => exact ⟨⟨hnd, hqb, hob⟩, htno⟩
    | some fm =>
      cases hfq : findQuestionInForm s questionId formId with
      | none => exact ⟨⟨hnd, hqb, hob⟩, htno⟩
      | some q0 =>
        dsimp only
        by_cases hty : q0.type = "text"
        · rw [if_pos hty]
          exact ⟨⟨hnd, hqb, hob⟩, htno⟩
        · rw [if_neg hty]
          obtain ⟨hq0mem, hq0id, _⟩ := findQuestionInForm_spec s questionId formId q0 hfq
          refine ⟨⟨hnd, ?_, ?_⟩, ?_⟩
          · intro q hq
            exact Nat.lt_trans (hqb q hq) (Nat.lt_succ_self _)
          · intro o ho
            rcases List.mem_append.mp ho with h | h
            · exact Nat.lt_trans (hob o h) (Nat.lt_succ_self _)
            · rw [List.mem_singleton] at h
              subst h
              show questionId < s.nextId + 1
              rw [← hq0id]
              exact Nat.lt_trans (hqb q0 hq0mem) (Nat.lt_succ_self _)
          · intro q hq hqt o ho
            rcases List.mem_append.mp ho with h | h
            · exact htno q hq hqt o h
            · rw [List.mem_singleton] at h
              subst h
              intro hcon
              have hqeq : q = q0 :=
                List.inj_on_of_nodup_map hnd hq hq0mem (hq0id.trans hcon).symm
              rw [hqeq] at hqt
              exact hty hqt
  | updateOption now userId formId questionId optionId newValue newPosition =>
    show WFQ (updateOption s now userId formId questionId optionId
        newValue newPosition).1 ∧
      TextNoOptions (updateOption s now userId formId questionId optionId
        newValue newPosition).1
    unfold updateOption
    cases hff : findForm s formId userId with
    | none => exact ⟨⟨hnd, hqb, hob⟩, htno⟩
    | some fm =>
      cases hfq : findQuestionInForm s questionId formId with
      | none => exact ⟨⟨hnd, hqb, hob⟩, htno⟩
      | some q0 =>
        cases hfo : findOptionInQuestion s optionId questionId with
        | none => exact ⟨⟨hnd, hqb, hob⟩, htno⟩
        | some o0 =>
          dsimp only
          have hoq : ∀ o : OptionRow,
              (updOptView optionId newValue newPosition o).questionId =
                o.questionId := by
            intro o
            unfold updOptView
            split <;> rfl
          refine ⟨⟨hnd, ?_, ?_⟩, ?_⟩
          · intro q hq
            exact hqb q hq
          · intro o ho
            obtain ⟨o1, ho1, rfl⟩ := List.mem_map.mp ho
            rw [hoq o1]
            exact hob o1 ho1
          · intro q hq hqt o ho
            obtain ⟨o1, ho1, rfl⟩ := List.mem_map.mp ho
            rw [hoq o1]
            exact htno q hq hqt o1 ho1
  | deleteOption now userId formId questionId optionId =>
    show WFQ (deleteOption s now userId formId questionId optionId).1 ∧
      TextNoOptions (deleteOption s now userId formId questionId optionId).1
    unfold deleteOption
    cases hff : findForm s formId userId with
    | none => exact ⟨⟨hnd, hqb, hob⟩, htno⟩
    | some fm =>
      cases hfq : findQuestionInForm s questionId formId with
      | none => exact ⟨⟨hnd, hqb, hob⟩, htno⟩
      | some q0 =>
        cases hfo : findOptionInQuestion s optionId questionId with
        | none => exact ⟨⟨hnd, hqb, hob⟩, htno⟩
        | some o0 =>
          dsimp only
          refine ⟨⟨hnd, ?_, ?_⟩, ?_⟩
          · intro q hq
            exact hqb q hq
          · intro o ho
            exact hob o (List.mem_filter.mp ho).1
          · intro q hq hqt o ho
            exact htno q hq hqt o (List.mem_filter.mp ho).1
  | createResponse now userId formId answersData =>
    show WFQ (createResponseTx s now userId formId answersData).1 ∧
      TextNoOptions (createResponseTx s now userId formId answersData).1
    obtain ⟨g1, g2, g3, g4⟩ := createResponseTx_preserves s now userId formId answersData
    refine ⟨⟨?_, ?_, ?_⟩, ?_⟩
    · show (((createResponseTx s now userId formId answersData).1).questions.map
        (fun q => q.id)).Nodup
      rw [g1]
      exact hnd
    · intro q hq
      rw [g1] at hq
      exact Nat.lt_of_lt_of_le (hqb q hq) g4
    · intro o ho
      rw [g2] at ho
      exact Nat.lt_of_lt_of_le (hob o ho) g4
    · intro q hq hqt o ho
      rw [g1] at hq
      rw [g2] at ho
      exact htno q hq hqt o ho


/-- Iterated operations preserve well-formedness and the text-question
invariant. -/
theorem invariants_runOps (s : Store) (ops : List Op)
    (hwf : WFQ s) (htno : TextNoOptions s) :
    WFQ (runOps s ops) ∧ TextNoOptions (runOps s ops) := by
  induction ops generalizing s with
  | nil => exact ⟨hwf, htno⟩
  | cons op ops ih =>
    obtain ⟨hwf2, htno2⟩ := invariants_applyOp s op hwf htno
    exact ih (applyOp s op) hwf2 htno2

/-- Creating an Option on a Question of type 'text' is rejected by the
serializer before any write: the store is returned unchanged with the
ValidationError of `OptionSerializer.create`. -/
theorem createOption_text_rejected (s : Store)
    (now userId formId questionId : Nat) (value : String) (position : Int)
    (f : Form) (q : Question)
    (hf : findForm s formId userId = some f)
    (hq : findQuestionInForm s questionId formId = some q)
    (ht : q.type = "text") :
    createOption s now userId formId questionId value position =
      (s, .error .textTypeOption) := by
  unfold createOption
  simp only [hf, hq]
  rw [if_pos ht]

/-- Updating a Question's type to 'text' succeeds and deletes every Option of
that Question. -/
theorem updateQuestion_toText (s : Store) (now userId formId questionId : Nat)
    (f : Form) (q : Question)
    (hf : findForm s formId userId = some f)
    (hq : findQuestionInForm s questionId formId = some q) :
    (updateQuestion s now userId formId questionId none (some "text")).2 = .ok () ∧
    (updateQuestion s now userId formId questionId none (some "text")).1.options =
      s.options.filter (fun o => !(o.questionId == questionId)) ∧
    ∀ o ∈ (updateQuestion s now userId formId questionId none (some "text")).1.options,
      o.questionId ≠ questionId := by
  unfold updateQuestion
  simp only [hf, hq]
  rw [if_neg (by decide :
    ¬((!questionTypeChoices.contains "text") = true))]
  rw [if_pos trivial]
  refine ⟨rfl, rfl, ?_⟩
  intro o ho
  have hpred := (List.mem_filter.mp ho).2
  rw [Bool.not_eq_eq_eq_not, Bool.not_true, beq_eq_false_iff_ne] at hpred
  exact hpred

/-- Converting a Question that is already of type 'text' is a no-op apart
from the form-timestamp touch that every update performs: the resulting store
is exactly `touchForm` of the old one (in particular the conversion is
idempotent). -/
theorem updateQuestion_toText_noop (s : Store)
    (now userId formId questionId : Nat) (f : Form) (q : Question)
    (hf : findForm s formId userId = some f)
    (hq : findQuestionInForm s questionId formId = some q)
    (ht : q.type = "text")
    (hnd : (s.questions.map (fun q => q.id)).Nodup)
    (htno : TextNoOptions s) :
    updateQuestion s now userId formId questionId none (some "text") =
      (touchForm s formId now, .ok ()) := by
  obtain ⟨hqmem, hqid, _⟩ := findQuestionInForm_spec s questionId formId q hq
  have hopts : s.options.filter (fun o => !(o.questionId == questionId)) =
      s.options := by
    rw [List.filter_eq_self]
    intro o ho
    rw [Bool.not_eq_eq_eq_not, Bool.not_true, beq_eq_false_iff_ne]
    exact fun hcon => (htno q hqmem ht o ho) (hcon.trans hqid.symm)
  have hqs : s.questions.map (updView questionId none (some "text")) =
      s.questions := by
    have hpt : ∀ qq ∈ s.questions, updView questionId none (some "text") qq = qq := by
      intro qq hqqmem
      unfold updView
      by_cases hqq : (qq.id == questionId) = true
      · rw [if_pos hqq]
        rw [beq_iff_eq] at hqq
        have heq : qq = q :=
          List.inj_on_of_nodup_map hnd hqqmem hqmem (by rw [hqq, hqid])
        subst heq
        obtain ⟨qid, qtext, qtype, qform⟩ := qq
        have ht2 : qtype = "text" := ht
        rw [ht2]
        rfl
      · rw [if_neg (fun h => hqq h)]
    calc s.questions.map (updView questionId none (some "text"))
        = s.questions.map (fun qq => qq) := List.map_congr_left hpt
      _ = s.questions := List.map_id' s.questions
  unfold updateQuestion
  simp only [hf, hq]
  rw [if_neg (by decide :
    ¬((!questionTypeChoices.contains "text") = true))]
  rw [if_pos trivial]
  unfold mapQuestions deleteOptionsOf
  dsimp only
  rw [hopts, hqs]

/-- C6: every modelled operation preserves the invariant that a Question of
type 'text' owns zero Options (single steps on well-formed stores, and whole
operation sequences); creating an Option on a text Question is rejected with
the store unchanged; updating a Question's type to 'text' succeeds and
deletes all of its Options; and performing that conversion when the Question
is already of type 'text' changes nothing except the form-timestamp touch
every update performs — the resulting store is exactly `touchForm` of the old
one, so the conversion is idempotent. -/
theorem claim_C6_text_invariant :
    (∀ (s : Store) (op : Op), WFQ s → TextNoOptions s →
      TextNoOptions (applyOp s op)) ∧
    (∀ (s : Store) (ops : List Op), WFQ s → TextNoOptions s →
      TextNoOptions (runOps s ops)) ∧
    (∀ (s : Store) (now userId formId questionId : Nat) (value : String)
        (position : Int) (f : Form) (q : Question),
      findForm s formId userId = some f →
      findQuestionInForm s questionId formId = some q →
      q.type = "text" →
      createOption s now userId formId questionId value position =
        (s, .error .textTypeOption)) ∧
    (∀ (s : Store) (now userId formId questionId : Nat) (f : Form) (q : Question),
      findForm s formId userId = some f →
      findQuestionInForm s questionId formId = some q →
      (updateQuestion s now userId formId questionId none (some "text")).2 =
        .ok () ∧
      ∀ o ∈ (updateQuestion s now userId formId questionId
          none (some "text")).1.options,
        o.questionId ≠ questionId) ∧
    (∀ (s : Store) (now userId formId questionId : Nat) (f : Form) (q : Question),
      findForm s formId userId = some f →
      findQuestionInForm s questionId formId = some q →
      q.type = "text" →
      (s.questions.map (fun q => q.id)).Nodup →
      TextNoOptions s →
      updateQuestion s now userId formId questionId none (some "text") =
        (touchForm s formId now, .ok ())) := by
  refine ⟨?_, ?_, ?_, ?_, ?_⟩
  · intro s op hwf htno
    exact (invariants_applyOp s op hwf htno).2
  · intro s ops hwf htno
    exact (invariants_runOps s ops hwf htno).2
  · intro s now userId formId questionId value position f q hf hq ht
    exact createOption_text_rejected s now userId formId questionId value position
      f q hf hq ht
  · intro s now userId formId questionId f q hf hq
    obtain ⟨h1, _, h3⟩ := updateQuestion_toText s now userId formId questionId f q hf hq
    exact ⟨h1, h3⟩
  · intro s now userId formId questionId f q hf hq ht hnd htno
    exact updateQuestion_toText_noop s now userId formId questionId f q hf hq ht
      hnd htno

/-- Witness for C6 on the sample store: converting the select question 2 to
'text' preserves the invariant, creating an Option on the text question 4 is
rejected with the store unchanged, and converting question 4 (already text)
to 'text' only touches the form timestamp, all instantiated from the claim
theorem. -/
theorem claim_C6_text_invariant_witness :
    TextNoOptions (applyOp sampleStore (Op.updateQuestion 100 1 1 2 none (some "text"))) ∧
    createOption sampleStore 100 1 1 4 "X" 0 = (sampleStore, .error .textTypeOption) ∧
    updateQuestion sampleStore 100 1 1 4 none (some "text") =
      (touchForm sampleStore 1 100, .ok ()) :=
  ⟨claim_C6_text_invariant.1 sampleStore (Op.updateQuestion 100 1 1 2 none (some "text"))
      ⟨by decide, by decide, by decide⟩
      (by unfold TextNoOptions; decide),
   claim_C6_text_invariant.2.2.1 sampleStore 100 1 1 4 "X" 0
      ⟨1, 1, 0, 0, "F", "d"⟩ ⟨4, "q3", "text", 1⟩ (by decide) (by decide) (by decide),
   claim_C6_text_invariant.2.2.2.2 sampleStore 100 1 1 4
      ⟨1, 1, 0, 0, "F", "d"⟩ ⟨4, "q3", "text", 1⟩ (by decide) (by decide) (by decide)
      (by decide) (by unfold TextNoOptions; decide)⟩


/-! ## Form touch propagation (C7) -/

/-- Form lookup depends only on the forms table. -/
theorem getForm_congr (s₁ s₂ : Store) (h : s₁.forms = s₂.forms) (F : Nat) :
    getForm s₁ F = getForm s₂ F := by
  unfold getForm
  rw [h]

/-- Looking a form up after a touch returns the looked-up form, with its
timestamp set to the touch time when it is the touched one. -/
theorem getForm_touchForm (s : Store) (fid now F : Nat) :
    getForm (touchForm s fid now) F =
      (getForm s F).map
        (fun f => if f.id == fid then { f with dateUpdated := now } else f) := by
  unfold getForm touchForm
  rw [List.find?_map]
  have hp : ((fun f : Form => f.id == F) ∘
      (fun f : Form => if f.id == fid then { f with dateUpdated := now } else f)) =
      (fun f : Form => f.id == F) := by
    funext f
    show ((if f.id == fid then { f with dateUpdated := now } else f).id == F) =
      (f.id == F)
    split <;> rfl
  rw [hp]

/-- After one operation, the forms table is unchanged unless the operation is
a structural (Question/Option) change: then it is the table of `touchForm`
applied at the operation's target form and clock reading. -/
theorem applyOp_forms_shape (s : Store) (op : Op) :
    (applyOp s op).forms = s.forms ∨
    ∃ fid, op.structuralFormId = some fid ∧
      (applyOp s op).forms = (touchForm s fid op.now).forms := by
  cases op with
  | createQuestion now userId formId text ty =>
    rw [show applyOp s (Op.createQuestion now userId formId text ty) =
      (createQuestion s now userId formId text ty).1 from rfl]
    unfold createQuestion
    cases hff : findForm s formId userId with
    | none => exact Or.inl rfl
    | some fm =>
      dsimp only
      by_cases hty : (!questionTypeChoices.contains ty) = true
      · rw [if_pos hty]
        exact Or.inl rfl
      · rw [if_neg hty]
        exact Or.inr ⟨formId, rfl, rfl⟩
  | updateQuestion now userId formId questionId newText newType =>
    rw [show applyOp s (Op.updateQuestion now userId formId questionId newText newType) =
      (updateQuestion s now userId formId questionId newText newType).1 from rfl]
    unfold updateQuestion
    cases hff : findForm s formId userId with
    | none => exact Or.inl rfl
    | some fm =>
      cases hfq : findQuestionInForm s questionId formId with
      | none => exact Or.inl rfl
      | some q0 =>
        dsimp only
        by_cases hty : (match newType with
            | some t => !questionTypeChoices.contains t
            | none => false) = true
        · rw [if_pos hty]
          exact Or.inl rfl
        · rw [if_neg hty]
          by_cases hnt : newType = some "text"
          · rw [if_pos hnt]
            exact Or.inr ⟨formId, rfl, rfl⟩
          · rw [if_neg hnt]
            exact Or.inr ⟨formId, rfl, rfl⟩
  | deleteQuestion now userId formId questionId =>
    rw [show applyOp s (Op.deleteQuestion now userId formId questionId) =
      (deleteQuestion s now userId formId questionId).1 from rfl]
    unfold deleteQuestion
    cases hff : findForm s formId userId with
    | none => exact Or.inl rfl
    | some fm =>
      cases hfq : findQuestionInForm s questionId formId with
      | none => exact Or.inl rfl
      | some q0 => exact Or.inr ⟨formId, rfl, rfl⟩
  | createOption now userId formId questionId v p =>
    rw [show applyOp s (Op.createOption now userId formId questionId v p) =
      (createOption s now userId formId questionId v p).1 from rfl]
    unfold createOption
    cases hff : findForm s formId userId with
    | none => exact Or.inl rfl
    | some fm =>
      cases hfq : findQuestionInForm s questionId formId with
      | none => exact Or.inl rfl
      | some q0 =>
        dsimp only
        by_cases hty : q0.type = "text"
        · rw [if_pos hty]
          exact Or.inl rfl
        · rw [if_neg hty]
          exact Or.inr ⟨formId, rfl, rfl⟩
  | updateOption now userId formId questionId optionId newValue newPosition =>
    rw [show applyOp s (Op.updateOption now userId formId questionId optionId
        newValue newPosition) =
      (updateOption s now userId formId questionId optionId newValue newPosition).1
      from rfl]
    unfold updateOption
    cases hff : findForm s formId userId with
    | none => exact Or.inl rfl
    | some fm =>
      cases hfq : findQuestionInForm s questionId formId with
      | none => exact Or.inl rfl
      | some q0 =>
        cases hfo : findOptionInQuestion s optionId questionId with
        | none => exact Or.inl rfl
        | some o0 => exact Or.inr ⟨formId, rfl, rfl⟩
  | deleteOption now userId formId questionId optionId =>
    rw [show applyOp s (Op.deleteOption now userId formId questionId optionId) =
      (deleteOption s now userId formId questionId optionId).1 from rfl]
    unfold deleteOption
    cases hff : findForm s formId userId with
    | none => exact Or.inl rfl
    | some fm =>
      cases hfq : findQuestionInForm s questionId formId with
      | none => exact Or.inl rfl
      | some q0 =>
        cases hfo : findOptionInQuestion s optionId questionId with
        | none => exact Or.inl rfl
        | some o0 => exact Or.inr ⟨formId, rfl, rfl⟩
  | createResponse now userId formId answersData =>
    exact Or.inl (createResponseTx_preserves s now userId formId answersData).2.2.1

/-- A successful structural operation leaves the forms table exactly touched
at its target form and clock reading. -/
theorem applyOp_forms_on_success (s : Store) (op : Op) (F : Nat)
    (hF : op.structuralFormId = some F) (hok : (runOp s op).2 = true) :
    (applyOp s op).forms = (touchForm s F op.now).forms := by
  cases op with
  | createQuestion now userId formId text ty =>
    injection hF with hF
    subst hF
    revert hok
    show (createQuestion s now userId formId text ty).2.toBool = true →
      (createQuestion s now userId formId text ty).1.forms = (touchForm s formId now).forms
    unfold createQuestion
    cases hff : findForm s formId userId with
    | none => intro hok; cases hok
    | some fm =>
      dsimp only
      by_cases hty : (!questionTypeChoices.contains ty) = true
      · rw [if_pos hty]
        intro hok
        cases hok
      · rw [if_neg hty]
        intro _
        rfl
  | updateQuestion now userId formId questionId newText newType =>
    injection hF with hF
    subst hF
    revert hok
    show (updateQuestion s now userId formId questionId newText newType).2.toBool = true →
      (updateQuestion s now userId formId questionId newText newType).1.forms =
        (touchForm s formId now).forms
    unfold updateQuestion
    cases hff : findForm s formId userId with
    | none => intro hok; cases hok
    | some fm =>
      cases hfq : findQuestionInForm s questionId formId with
      | none => intro hok; cases hok
      | some q0 =>
        dsimp only
        by_cases hty : (match newType with
            | some t => !questionTypeChoices.contains t
            | none => false) = true
        · rw [if_pos hty]
          intro hok
          cases hok
        · rw [if_neg hty]
          intro _
          by_cases hnt : newType = some "text"
          · rw [if_pos hnt]
            rfl
          · rw [if_neg hnt]
            rfl
  | deleteQuestion now userId formId questionId =>
    injection hF with hF
    subst hF
    revert hok
    show (deleteQuestion s now userId formId questionId).2.toBool = true →
      (deleteQuestion s now userId formId questionId).1.forms = (touchForm s formId now).forms
    unfold deleteQuestion
    cases hff : findForm s formId userId with
    | none => intro hok; cases hok
    | some fm =>
      cases hfq : findQuestionInForm s questionId formId with
      | none => intro hok; cases hok
      | some q0 =>
        intro _
        rfl
  | createOption now userId formId questionId v p =>
    injection hF with hF
    subst hF
    revert hok
    show (createOption s now userId formId questionId v p).2.toBool = true →
      (createOption s now userId formId questionId v p).1.forms = (touchForm s formId now).forms
    unfold createOption
    cases hff : findForm s formId userId with
    | none => intro hok; cases hok
    | some fm =>
      cases hfq : findQuestionInForm s questionId formId with
      | none => intro hok; cases hok
      | some q0 =>
        dsimp only
        by_cases hty : q0.type = "text"
        · rw [if_pos hty]
          intro hok
          cases hok
        · rw [if_neg hty]
          intro _
          rfl
  | updateOption now userId formId questionId optionId newValue newPosition =>
    injection hF with hF
    subst hF
    revert hok
    show (updateOption s now userId formId questionId optionId
        newValue newPosition).2.toBool = true →
      (updateOption s now userId formId questionId optionId newValue newPosition).1.forms =
        (touchForm s formId now).forms
    unfold updateOption
    cases hff : findForm s formId userId with
    | none => intro hok; cases hok
    | some fm =>
      cases hfq : findQuestionInForm s questionId formId with
      | none => intro hok; cases hok
      | some q0 =>
        cases hfo : findOptionInQuestion s optionId questionId with
        | none => intro hok; cases hok
        | some o0 =>
          intro _
          rfl
  | deleteOption now userId formId questionId optionId =>
    injection hF with hF
    subst hF
    revert hok
    show (deleteOption s now userId formId questionId optionId).2.toBool = true →
      (deleteOption s now userId formId questionId optionId).1.forms =
        (touchForm s formId now).forms
    unfold deleteOption
    cases hff : findForm s formId userId with
    | none => intro hok; cases hok
    | some fm =>
      cases hfq : findQuestionInForm s questionId formId with
      | none => intro hok; cases hok
      | some q0 =>
        cases hfo : findOptionInQuestion s optionId questionId with
        | none => intro hok; cases hok
        | some o0 =>
          intro _
          rfl
  | createResponse now userId formId answersData => cases hF

/-- A form looked up right after being touched carries the touch time. -/
theorem touched_dateUpdated (s : Store) (F now : Nat) (f' : Form)
    (h' : getForm (touchForm s F now) F = some f') :
    f'.dateUpdated = now := by
  rw [getForm_touchForm] at h'
  rcases hg : getForm s F with _ | f0
  · rw [hg] at h'
    cases h'
  · rw [hg] at h'
    injection h' with h'
    unfold getForm at hg
    have hid := List.find?_some hg
    dsimp only at h'
    rw [if_pos hid] at h'
    rw [← h']


/-- One operation either leaves a form's last-modified timestamp unchanged or
sets it to the operation's clock reading. -/
theorem applyOp_dateUpdated_step (s : Store) (op : Op) (F : Nat) (f f' : Form)
    (h : getForm s F = some f) (h' : getForm (applyOp s op) F = some f') :
    f'.dateUpdated = f.dateUpdated ∨ f'.dateUpdated = op.now := by
  rcases applyOp_forms_shape s op with hsame | ⟨fid, _, htouch⟩
  · rw [getForm_congr _ _ hsame F, h] at h'
    injection h' with h'
    exact Or.inl (by rw [← h'])
  · rw [getForm_congr _ _ htouch F, getForm_touchForm, h] at h'
    injection h' with h'
    dsimp only at h'
    by_cases hid : (f.id == fid) = true
    · rw [if_pos hid] at h'
      exact Or.inr (by rw [← h'])
    · rw [if_neg hid] at h'
      exact Or.inl (by rw [← h'])

/-- A form present before an operation is still present afterwards (no
modelled operation deletes a Form). -/
theorem applyOp_getForm_isSome (s : Store) (op : Op) (F : Nat) (f : Form)
    (h : getForm s F = some f) :
    ∃ f', getForm (applyOp s op) F = some f' := by
  rcases applyOp_forms_shape s op with hsame | ⟨fid, _, htouch⟩
  · exact ⟨f, by rw [getForm_congr _ _ hsame F]; exact h⟩
  · exact ⟨(fun g => if g.id == fid then { g with dateUpdated := op.now } else g) f,
      by rw [getForm_congr _ _ htouch F, getForm_touchForm, h]; rfl⟩

/-- Along any operation sequence whose clock readings are non-decreasing and
start no earlier than a form's current timestamp, that form's last-modified
timestamp never decreases. -/
theorem runOps_dateUpdated_mono (F : Nat) :
    ∀ (ops : List Op) (s : Store) (t : Nat) (f : Form),
      getForm s F = some f → f.dateUpdated ≤ t →
      List.Chain' (· ≤ ·) (t :: ops.map Op.now) →
      ∀ f', getForm (runOps s ops) F = some f' →
        f.dateUpdated ≤ f'.dateUpdated := by
  intro ops
  induction ops with
  | nil =>
    intro s t f h _ _ f' h'
    have h2 : getForm s F = some f' := h'
    rw [h] at h2
    injection h2 with h2
    rw [h2]
  | cons op ops ih =>
    intro s t f h hle hchain f' h'
    rw [List.map_cons, List.chain'_cons] at hchain
    obtain ⟨hle2, hchain2⟩ := hchain
    obtain ⟨f₁, h₁⟩ := applyOp_getForm_isSome s op F f h
    have hstep := applyOp_dateUpdated_step s op F f f₁ h h₁
    have hb₁ : f₁.dateUpdated ≤ op.now := by
      rcases hstep with h2 | h2
      · rw [h2]
        exact Nat.le_trans hle hle2
      · rw [h2]
    have hmono : f.dateUpdated ≤ f₁.dateUpdated := by
      rcases hstep with h2 | h2
      · rw [h2]
      · rw [h2]
        exact Nat.le_trans hle hle2
    have h'' : getForm (runOps (applyOp s op) ops) F = some f' := h'
    exact Nat.le_trans hmono (ih (applyOp s op) op.now f₁ h₁ hb₁ hchain2 f' h'')

/-- C7: (a) every successful create, update or delete of a Question or Option
under a Form sets that Form's last-modified timestamp to the operation's
current clock reading, as part of the same operation; (b) across every
sequence of operations run at non-decreasing clock readings, a Form's
last-modified timestamp is monotonically non-decreasing. -/
theorem claim_C7_touch_and_monotonicity :
    (∀ (s : Store) (op : Op) (F : Nat),
      op.structuralFormId = some F → (runOp s op).2 = true →
      ∀ f', getForm (applyOp s op) F = some f' → f'.dateUpdated = op.now) ∧
    (∀ (s : Store) (ops : List Op) (t F : Nat) (f f' : Form),
      getForm s F = some f → f.dateUpdated ≤ t →
      List.Chain' (· ≤ ·) (t :: ops.map Op.now) →
      getForm (runOps s ops) F = some f' →
      f.dateUpdated ≤ f'.dateUpdated) := by
  constructor
  · intro s op F hF hok f' h'
    have hforms := applyOp_forms_on_success s op F hF hok
    rw [getForm_congr _ _ hforms F] at h'
    exact touched_dateUpdated s F op.now f' h'
  · intro s ops t F f f' h hle hchain h'
    exact runOps_dateUpdated_mono F ops s t f h hle hchain f' h'

/-- Witness for C7 on the sample store: deleting option 6 at time 100 stamps
the form with 100, and across the one-operation sequence starting at clock 50
the form's timestamp does not decrease, both instantiated from the claim
theorem. -/
theorem claim_C7_touch_and_monotonicity_witness :
    (⟨1, 1, 0, 100, "F", "d"⟩ : Form).dateUpdated =
      (Op.deleteOption 100 1 1 2 6).now ∧
    (⟨1, 1, 0, 0, "F", "d"⟩ : Form).dateUpdated ≤
      (⟨1, 1, 0, 100, "F", "d"⟩ : Form).dateUpdated :=
  ⟨claim_C7_touch_and_monotonicity.1 sampleStore (Op.deleteOption 100 1 1 2 6) 1
      rfl (by decide) ⟨1, 1, 0, 100, "F", "d"⟩ (by decide),
   claim_C7_touch_and_monotonicity.2 sampleStore [Op.deleteOption 100 1 1 2 6] 50 1
      ⟨1, 1, 0, 0, "F", "d"⟩ ⟨1, 1, 0, 100, "F", "d"⟩ (by decide) (by decide)
      (List.chain'_cons.mpr ⟨by decide, List.chain'_singleton 100⟩) (by decide)⟩

end MyForms
